import Mathlib

/-!
Verification of the podcast-analyzer asynchronous analysis pipeline.

Shallow embedding of the Go sources: Go strings are modelled as `List Char`
(byte indices coincide with character indices on the ASCII data handled
here), machine floats carrying confidence scores as `Rat`, fallible calls as
`Except`, and the external collaborators (database, queue, LLM and search
providers) as explicit outcome parameters.
-/

set_option maxRecDepth 100000

namespace PodcastAnalyzer

/-! ## Retry protocol

Embeds `AnthropicClient.makeRequestWithRetry` (internal/clients).  A provider
is a function from the attempt number to the outcome of that HTTP request;
the loop body is mirrored branch by branch.  `waits` records the seconds
slept between attempts (exponential backoff, overridden by a Retry-After
header on 429). -/

inductive ProviderResp where
  | transportError : ProviderResp
  | resp (status : Nat) (retryAfterHeader : Option Nat) : ProviderResp
deriving DecidableEq

deriving instance DecidableEq for Except

structure RetryOut where
  requests : Nat
  waits : List Nat
  result : Except String (Nat × Nat)
deriving DecidableEq

/-- One pass of the `for attempt := 0; attempt <= maxRetries; attempt++` loop,
counting down the remaining iterations.  `lastErr` threads the Go `lastErr`
variable; context cancellation is not modelled (no cancellation occurs). -/
def retryAux (p : Nat → ProviderResp) (maxRetries : Nat) :
    Nat → Nat → String → RetryOut
  | 0, _, lastErr => ⟨0, [], .error lastErr⟩
  | remaining + 1, attempt, lastErr =>
    match p attempt with
    | .transportError =>
      -- lastErr = "HTTP request failed: ..."; wait only when attempt < maxRetries
      if attempt < maxRetries then
        let waitTime := 2 ^ attempt
        let r := retryAux p maxRetries remaining (attempt + 1) "HTTP request failed"
        ⟨r.requests + 1, waitTime :: r.waits, r.result⟩
      else
        let r := retryAux p maxRetries remaining (attempt + 1) "HTTP request failed"
        ⟨r.requests + 1, r.waits, r.result⟩
    | .resp status retryAfterHeader =>
      if 500 ≤ status ∨ status = 429 then
        if attempt < maxRetries then
          let waitTime :=
            if status = 429 then retryAfterHeader.getD (2 ^ attempt) else 2 ^ attempt
          let r := retryAux p maxRetries remaining (attempt + 1) lastErr
          ⟨r.requests + 1, waitTime :: r.waits, r.result⟩
        else
          let r := retryAux p maxRetries remaining (attempt + 1) "server error after retries"
          ⟨r.requests + 1, r.waits, r.result⟩
      else
        -- success or non-retryable error: return the response immediately
        ⟨1, [], .ok (attempt, status)⟩

def makeRequestWithRetry (p : Nat → ProviderResp) (maxRetries : Nat) : RetryOut :=
  retryAux p maxRetries (maxRetries + 1) 0 ""

/-- `CallClaude` passes the hard-coded retry bound 3 to `makeRequestWithRetry`. -/
def callClaudeMaxRetries : Nat := 3

/-- Provider answering 500, 500, then 200 to successive requests. -/
def provider500x2then200 : Nat → ProviderResp :=
  fun n => if n < 2 then .resp 500 none else .resp 200 none

/-! ## Job rows and the status state machine

Embeds the `models.AnalysisResult` row together with the operations that
write it: `AnalysisService.UpdateJobStatus`, `AnalysisService.CreateAnalysisJob`
(services package) and the job processing paths of
`AnalysisService.processAnalysisJob` (analysis_job_processor.go) and of the
worker binary `AnalysisWorker.processAnalysisJob` (cmd/worker/main.go).
Timestamps are reduced to a `completedAtSet` flag; IDs are omitted (the row
under study is the single row keyed by the job ID). -/

inductive JobStatus where
  | pending | processing | completed | failed
deriving DecidableEq

/-- The singleton JSON object built by `transformAnalysisResults`
(`map[string]interface` with single key "takeaways"). -/
structure TakeawaysMap where
  takeaways : List String
deriving DecidableEq

/-- The singleton JSON object with single key "sources" wrapped around each
fact-check source list by `transformAnalysisResults`. -/
structure SourcesMap where
  sources : List String
deriving DecidableEq

/-- `agents.FactCheck`: output of the fact checker agent. -/
structure AgentFactCheck where
  claim : String
  verdict : String
  confidence : Rat
  evidence : String
  sources : List String
deriving DecidableEq

/-- `services.FactCheckResult` as produced by `transformAnalysisResults`. -/
structure FactCheckResult where
  claim : String
  verdict : String
  confidence : Rat
  evidence : String
  sources : SourcesMap
deriving DecidableEq

/-- `services.AnalysisResults` as produced by `transformAnalysisResults`. -/
structure AnalysisResults where
  summary : String
  takeaways : TakeawaysMap
  factChecks : List FactCheckResult
deriving DecidableEq

/-- A `models.FactCheck` row as written by `saveFactChecks`. -/
structure StoredFactCheck where
  claim : String
  verdict : String
  confidence : Rat
  evidence : String
  sources : SourcesMap
deriving DecidableEq

/-- A `models.AnalysisResult` row (fields relevant to the lifecycle). -/
structure AnalysisRow where
  status : JobStatus
  summary : Option String
  takeaways : Option TakeawaysMap
  errorMessage : Option String
  completedAtSet : Bool
  factChecks : List StoredFactCheck
deriving DecidableEq

/-- `AnalysisService.UpdateJobStatus` (the in-row effect when the lookup and
save succeed): sets the status unconditionally — no transition guard —
records the error message only when nonempty, and stamps `CompletedAt` on
entering completed or failed. -/
def updateJobStatus (row : AnalysisRow) (status : JobStatus) (errorMessage : String) :
    AnalysisRow :=
  { row with
    status := status
    errorMessage := if errorMessage ≠ "" then some errorMessage else row.errorMessage
    completedAtSet :=
      if status = .completed ∨ status = .failed then true else row.completedAtSet }

/-- Outcomes of the external collaborators during one `CreateAnalysisJob` call. -/
structure CreateJobEnv where
  transcriptExists : Bool
  insertOk : Bool
  publishOk : Bool
deriving DecidableEq

/-- The freshly inserted analysis row (`Status: "pending"`). -/
def newAnalysisRow : AnalysisRow :=
  { status := .pending, summary := none, takeaways := none, errorMessage := none
    completedAtSet := false, factChecks := [] }

/-- `AnalysisService.CreateAnalysisJob`: returns the row (if one was
inserted), the list of status values subsequently written to it, and the
call result.  On a publish failure the code runs
`s.db.Model(analysis).Update("status", "failed")`, which updates the status
column only — no error message, no completion timestamp. -/
def createAnalysisJob (env : CreateJobEnv) :
    Option AnalysisRow × List JobStatus × Except String Unit :=
  match env.transcriptExists, env.insertOk, env.publishOk with
  | false, _, _ => (none, [], .error "transcript not found")
  | true, false, _ => (none, [], .error "failed to create analysis job")
  | true, true, false =>
    (some { newAnalysisRow with status := .failed }, [.failed],
      .error "failed to queue analysis job")
  | true, true, true => (some newAnalysisRow, [], .ok ())

/-- `runSummarizerAgent`: a summarizer error is propagated (fatal stage). -/
def runSummarizerAgent (r : Except String String) : Except String String := r

/-- `runTakeawayExtractorAgent`: on an agent error the orchestrator logs a
warning and returns an empty list instead of the error. -/
def runTakeawayExtractorAgent (r : Except String (List String)) :
    Except String (List String) :=
  match r with
  | .ok t => .ok t
  | .error _ => .ok []

/-- `runFactCheckerAgent`: on an agent error the orchestrator logs a warning
and returns an empty list instead of the error. -/
def runFactCheckerAgent (r : Except String (List AgentFactCheck)) :
    Except String (List AgentFactCheck) :=
  match r with
  | .ok f => .ok f
  | .error _ => .ok []

/-- `transformAnalysisResults`: wraps the takeaway list in the singleton
"takeaways" map and each source list in a singleton "sources" map. -/
def transformAnalysisResults (summary : String) (takeaways : List String)
    (factCheckResults : List AgentFactCheck) : AnalysisResults :=
  { summary := summary
    takeaways := ⟨takeaways⟩
    factChecks := factCheckResults.map fun fc =>
      ⟨fc.claim, fc.verdict, fc.confidence, fc.evidence, ⟨fc.sources⟩⟩ }

/-- `runAnalysisAgents`: the three stages in sequence, each parameterised by
the outcome of its underlying agent call. -/
def runAnalysisAgents (s : Except String String) (t : Except String (List String))
    (f : Except String (List AgentFactCheck)) : Except String AnalysisResults := do
  let summary ← runSummarizerAgent s
  let takeaways ← runTakeawayExtractorAgent t
  let factCheckResults ← runFactCheckerAgent f
  .ok (transformAnalysisResults summary takeaways factCheckResults)

/-- `saveFactChecks`: one `models.FactCheck` row per result (create errors on
individual rows are logged and skipped; modelled as succeeding). -/
def saveFactChecks (factChecks : List FactCheckResult) : List StoredFactCheck :=
  factChecks.map fun fc => ⟨fc.claim, fc.verdict, fc.confidence, fc.evidence, fc.sources⟩

/-- Outcomes of the collaborators during one `processAnalysisJob` run.
`agentsPanic = some msg` means a panic is raised inside the agent-processing
step (the representative point for a runtime panic during the job). -/
structure ProcessEnv where
  updateProcessingOk : Bool
  transcriptFound : Bool
  readContentOk : Bool
  agentsPanic : Option String
  summarizer : Except String String
  takeawayExtractor : Except String (List String)
  factChecker : Except String (List AgentFactCheck)
  saveFindOk : Bool
  saveOk : Bool

/-- Result of one job-processing run: the final row, the ordered list of
status values written to it, whether a panic propagated out of the function,
and whether the function returned an error. -/
structure ProcessOutcome where
  row : AnalysisRow
  writes : List JobStatus
  panicEscaped : Bool
  returnedError : Bool

/-- `AnalysisService.processAnalysisJob` (analysis_job_processor.go).

The function opens with `defer s.setupJobPanicRecovery(jobID, correlationID)`:
the deferred statement calls `setupJobPanicRecovery`, which merely returns
the recovery closure; the closure itself — the function containing
`recover()` — is never invoked (that would require a trailing `()`), so a
panic raised while processing propagates out of `processAnalysisJob` and no
failed-status write happens on the panic path. -/
def processAnalysisJob (env : ProcessEnv) (row0 : AnalysisRow) : ProcessOutcome :=
  match env.updateProcessingOk with
  | false => { row := row0, writes := [], panicEscaped := false, returnedError := true }
  | true =>
    let row1 := updateJobStatus row0 .processing ""
    match env.transcriptFound with
    | false =>
      { row := updateJobStatus row1 .failed "Transcript not found"
        writes := [.processing, .failed], panicEscaped := false, returnedError := true }
    | true =>
    match env.readContentOk with
    | false =>
      { row := updateJobStatus row1 .failed "Failed to read transcript content"
        writes := [.processing, .failed], panicEscaped := false, returnedError := true }
    | true =>
      match env.agentsPanic with
      | some _ =>
        -- the panic is not recovered: it escapes with no further write
        { row := row1, writes := [.processing], panicEscaped := true
          returnedError := false }
      | none =>
        match runAnalysisAgents env.summarizer env.takeawayExtractor env.factChecker with
        | .error _ =>
          { row := updateJobStatus row1 .failed "Analysis processing failed"
            writes := [.processing, .failed], panicEscaped := false, returnedError := true }
        | .ok results =>
          match env.saveFindOk with
          | false =>
            { row := updateJobStatus row1 .failed "Failed to find analysis record to update"
              writes := [.processing, .failed], panicEscaped := false
              returnedError := true }
          | true =>
          match env.saveOk with
          | false =>
            { row := updateJobStatus row1 .failed "Failed to save analysis results"
              writes := [.processing, .failed], panicEscaped := false
              returnedError := true }
          | true =>
            let row2 := { row1 with
              summary := some results.summary
              takeaways := some results.takeaways
              completedAtSet := true }
            let row3 := { row2 with factChecks := saveFactChecks results.factChecks }
            { row := updateJobStatus row3 .completed ""
              writes := [.processing, .completed], panicEscaped := false
              returnedError := false }

/-- `AnalysisWorker.processAnalysisJob` (cmd/worker/main.go).  Its deferred
inline closure does call `recover()`: a panic is caught at the job boundary
and converted into a returned error (`retErr`), but the recovery block only
logs — it performs no status write, so the row keeps whatever status it had
when the panic was raised. -/
def processAnalysisJobWorker (env : ProcessEnv) (row0 : AnalysisRow) : ProcessOutcome :=
  match env.updateProcessingOk with
  | false => { row := row0, writes := [], panicEscaped := false, returnedError := true }
  | true =>
    let row1 := updateJobStatus row0 .processing ""
    match env.transcriptFound with
    | false =>
      { row := updateJobStatus row1 .failed "Transcript not found"
        writes := [.processing, .failed], panicEscaped := false, returnedError := true }
    | true =>
    match env.readContentOk with
    | false =>
      { row := updateJobStatus row1 .failed "Failed to read transcript content"
        writes := [.processing, .failed], panicEscaped := false, returnedError := true }
    | true =>
      match env.agentsPanic with
      | some _ =>
        -- recover() fires, retErr is set, the row is left untouched
        { row := row1, writes := [.processing], panicEscaped := false
          returnedError := true }
      | none =>
        match runAnalysisAgents env.summarizer env.takeawayExtractor env.factChecker with
        | .error _ =>
          { row := updateJobStatus row1 .failed "Analysis processing failed"
            writes := [.processing, .failed], panicEscaped := false, returnedError := true }
        | .ok results =>
          match env.saveFindOk with
          | false =>
            { row := updateJobStatus row1 .failed "Failed to find analysis record to update"
              writes := [.processing, .failed], panicEscaped := false
              returnedError := true }
          | true =>
          match env.saveOk with
          | false =>
            { row := updateJobStatus row1 .failed "Failed to save analysis results"
              writes := [.processing, .failed], panicEscaped := false
              returnedError := true }
          | true =>
            let row2 := { row1 with
              summary := some results.summary
              takeaways := some results.takeaways
              completedAtSet := true }
            let row3 := { row2 with factChecks := saveFactChecks results.factChecks }
            { row := updateJobStatus row3 .completed ""
              writes := [.processing, .completed], panicEscaped := false
              returnedError := false }

/-- The worker consume loop (`AnalysisWorker.Run`): every dequeued message is
processed; a per-message error (including one converted from a panic) is
logged and the loop moves on to the next message. -/
def workerRun (envs : List ProcessEnv) : List ProcessOutcome :=
  envs.map (processAnalysisJobWorker · newAnalysisRow)

/-- The sequence of status values assumed by one job row: created pending by
`CreateAnalysisJob`, then — only if a message was enqueued — driven by one
`processAnalysisJob` run of the worker that dequeued it. -/
def jobStatusTrace (cEnv : CreateJobEnv) (pEnv : ProcessEnv) : List JobStatus :=
  match createAnalysisJob cEnv with
  | (none, _, _) => []
  | (some _, createWrites, .error _) => .pending :: createWrites
  | (some row, createWrites, .ok _) =>
    .pending :: createWrites ++ (processAnalysisJob pEnv row).writes

/-- The transition relation claimed by the specification:
pending → processing → either completed or failed, nothing else. -/
def specClaimedStep (a b : JobStatus) : Bool :=
  (a = .pending ∧ b = .processing) ∨
  (a = .processing ∧ b = .completed) ∨
  (a = .processing ∧ b = .failed)

/-- The transition relation the code actually follows: the claimed one plus
the direct pending → failed write of the enqueue-failure path. -/
def codeStep (a b : JobStatus) : Bool :=
  specClaimedStep a b ∨ (a = .pending ∧ b = .failed)

/-- Every adjacent pair of the list satisfies the step relation. -/
def chainOk (step : JobStatus → JobStatus → Bool) : List JobStatus → Bool
  | [] => true
  | [_] => true
  | a :: b :: rest => step a b && chainOk step (b :: rest)

/-- Once the trace reaches completed or failed, nothing follows. -/
def noWriteAfterTerminal : List JobStatus → Bool
  | [] => true
  | s :: rest =>
    if s = .completed ∨ s = .failed then rest.isEmpty else noWriteAfterTerminal rest

/-- A processing environment in which every collaborator succeeds. -/
def allOkProcessEnv : ProcessEnv :=
  { updateProcessingOk := true, transcriptFound := true, readContentOk := true
    agentsPanic := none, summarizer := .ok "", takeawayExtractor := .ok []
    factChecker := .ok [], saveFindOk := true, saveOk := true }

/-- The environment of a `CreateAnalysisJob` call whose Kafka publish fails. -/
def publishFailEnv : CreateJobEnv :=
  { transcriptExists := true, insertOk := true, publishOk := false }

/-- A processing run in which a panic is raised inside agent processing. -/
def panicProcessEnv : ProcessEnv :=
  { allOkProcessEnv with agentsPanic := some "runtime error" }

/-! ## Go string primitives

The agents and clients layer works on raw strings, modelled as `List Char`.
Two whitespace predicates are needed: the RE2 character class `\s`
(tab, newline, form feed, carriage return, space) used by the regular
expressions, and `unicode.IsSpace` used by `strings.TrimSpace` and
`strings.Fields`. -/

/-- RE2 whitespace class used by the patterns in the Go sources. -/
def reSpace (c : Char) : Bool :=
  c = ' ' ∨ c = '\t' ∨ c = '\n' ∨ c = '\r' ∨ c = Char.ofNat 12

/-- `unicode.IsSpace` on the Latin-1 range (`strings.TrimSpace`, `strings.Fields`). -/
def goSpace (c : Char) : Bool :=
  c = ' ' ∨ c = '\t' ∨ c = '\n' ∨ c = '\r' ∨ c = Char.ofNat 11 ∨ c = Char.ofNat 12 ∨
  c = Char.ofNat 133 ∨ c = Char.ofNat 160

/-- `strings.TrimSpace`. -/
def trimSpace (s : List Char) : List Char :=
  ((s.dropWhile goSpace).reverse.dropWhile goSpace).reverse

/-- `strings.HasPrefix`. -/
def goStartsWith (pre s : List Char) : Bool := s.take pre.length = pre

/-- `strings.HasSuffix`. -/
def goEndsWith (suf s : List Char) : Bool := s.reverse.take suf.length = suf.reverse

/-- Case-insensitive marker test: the needle (given in lower case) matches at
the head of the string ignoring ASCII case. -/
def startsWithCI (needle s : List Char) : Bool :=
  (s.take needle.length).map Char.toLower = needle

/-- `strings.Contains`. -/
def containsStr (needle : List Char) : List Char → Bool
  | [] => goStartsWith needle []
  | c :: cs => goStartsWith needle (c :: cs) || containsStr needle cs

/-- Case-insensitive `strings.Contains`, the needle given in lower case. -/
def containsCI (needle : List Char) : List Char → Bool
  | [] => startsWithCI needle []
  | c :: cs => startsWithCI needle (c :: cs) || containsCI needle cs

/-- Leftmost-match search: try the matcher at every suffix, leftmost first —
the search order of RE2 on an unanchored pattern. -/
def findAtSuffixes (f : List Char → Option α) : List Char → Option α
  | [] => f []
  | c :: cs => (f (c :: cs)) <|> findAtSuffixes f cs

/-- Index of the leftmost case-insensitive occurrence of the needle. -/
def firstIdxCI (needle : List Char) : List Char → Option Nat
  | [] => if startsWithCI needle [] then some 0 else none
  | c :: cs =>
    if startsWithCI needle (c :: cs) then some 0
    else (firstIdxCI needle cs).map (· + 1)

/-- `strings.Split` on a one-character separator. -/
def splitOnChar (sep : Char) : List Char → List (List Char)
  | [] => [[]]
  | c :: cs =>
    if c = sep then [] :: splitOnChar sep cs
    else
      match splitOnChar sep cs with
      | [] => [[c]]
      | h :: t => (c :: h) :: t

def fieldsAux : List Char → List Char → List (List Char)
  | [], acc => if acc.isEmpty then [] else [acc.reverse]
  | c :: cs, acc =>
    if goSpace c then
      if acc.isEmpty then fieldsAux cs [] else acc.reverse :: fieldsAux cs []
    else fieldsAux cs (c :: acc)

/-- `strings.Fields`: the maximal runs of non-whitespace characters. -/
def goFields (s : List Char) : List (List Char) := fieldsAux s []

/-- `regexp.MustCompile(backslash-s-plus).ReplaceAllString(s, " ")`: every
maximal whitespace run becomes a single space (`inRun` marks that the current
character continues a run already replaced). -/
def collapseWsAux : Bool → List Char → List Char
  | _, [] => []
  | inRun, c :: cs =>
    if reSpace c then
      if inRun then collapseWsAux true cs else ' ' :: collapseWsAux true cs
    else c :: collapseWsAux false cs

def collapseWs (s : List Char) : List Char := collapseWsAux false s

/-- `strings.LastIndex(s, " ")` for a one-character needle. -/
def lastIdxOf (c : Char) (l : List Char) : Option Nat :=
  (l.reverse.findIdx? (· = c)).map (fun i => l.length - 1 - i)

/-! ## Serper search client (internal/clients, SerperClient) -/

structure SerperResult where
  title : List Char
  link : List Char
  snippet : List Char
deriving DecidableEq

structure SerperAnswerBox where
  answer : List Char
  title : List Char
  link : List Char
  snippet : List Char
deriving DecidableEq

structure SerperKnowledgeGraph where
  title : List Char
  description : List Char
  website : List Char
deriving DecidableEq

structure SerperResponse where
  organic : List SerperResult
  answerBox : Option SerperAnswerBox
  knowledgeGraph : Option SerperKnowledgeGraph
deriving DecidableEq

structure SearchSnippet where
  title : List Char
  snippet : List Char
  url : List Char
deriving DecidableEq

structure SearchContext where
  originalClaim : List Char
  searchQuery : List Char
  snippets : List SearchSnippet
  sources : List (List Char)
  totalResults : Nat
deriving DecidableEq

/-- The answer-box contribution to the snippets (highest priority): the
snippet text, or the answer text when the snippet is empty. -/
def answerBoxSnippets (ab : Option SerperAnswerBox) : List SearchSnippet :=
  match ab with
  | none => []
  | some ab =>
    let snippet := if ab.snippet.isEmpty then ab.answer else ab.snippet
    if ¬ snippet.isEmpty then [⟨ab.title, snippet, ab.link⟩] else []

/-- The answer-box contribution to the sources (link recorded only when a
snippet was added and the link is nonempty). -/
def answerBoxSources (ab : Option SerperAnswerBox) : List (List Char) :=
  match ab with
  | none => []
  | some ab =>
    let snippet := if ab.snippet.isEmpty then ab.answer else ab.snippet
    if ¬ snippet.isEmpty ∧ ¬ ab.link.isEmpty then [ab.link] else []

def knowledgeGraphSnippets (kg : Option SerperKnowledgeGraph) : List SearchSnippet :=
  match kg with
  | none => []
  | some kg =>
    if ¬ kg.description.isEmpty then
      [⟨"Knowledge Graph: ".toList ++ kg.title, kg.description, kg.website⟩]
    else []

def knowledgeGraphSources (kg : Option SerperKnowledgeGraph) : List (List Char) :=
  match kg with
  | none => []
  | some kg =>
    if ¬ kg.description.isEmpty ∧ ¬ kg.website.isEmpty then [kg.website] else []

/-- The organic-results loop, snippet part: one snippet per result with a
nonempty snippet text. -/
def organicSnippets : List SerperResult → List SearchSnippet
  | [] => []
  | r :: rs =>
    (if ¬ r.snippet.isEmpty then [⟨r.title, r.snippet, r.link⟩] else []) ++
      organicSnippets rs

/-- The organic-results loop, source part: one source per result with a
nonempty link (independent of the snippet test). -/
def organicSources : List SerperResult → List (List Char)
  | [] => []
  | r :: rs => (if ¬ r.link.isEmpty then [r.link] else []) ++ organicSources rs

/-- `SerperClient.extractSearchContext`: answer box first, then knowledge
graph, then organic results.  The claim and query fields are filled in later
by `SearchForClaim`. -/
def extractSearchContext (results : SerperResponse) : SearchContext :=
  { originalClaim := []
    searchQuery := []
    snippets :=
      answerBoxSnippets results.answerBox ++
        knowledgeGraphSnippets results.knowledgeGraph ++ organicSnippets results.organic
    sources :=
      answerBoxSources results.answerBox ++
        knowledgeGraphSources results.knowledgeGraph ++ organicSources results.organic
    totalResults := results.organic.length }

/-- All URL fields present in a Serper response (answer-box link, knowledge
graph website, organic links). -/
def responseUrls (results : SerperResponse) : List (List Char) :=
  (match results.answerBox with | some ab => [ab.link] | none => []) ++
    (match results.knowledgeGraph with | some kg => [kg.website] | none => []) ++
    results.organic.map SerperResult.link

/-! ## Fact-checker response parsing (internal/agents, FactCheckerAgent)

The Go code parses the LLM reply with RE2 regular expressions.  RE2 facts
embedded below: matching is leftmost, `(?i)` folds ASCII case, `.` does not
match a newline, and — absent the `m` flag — `$` matches only at the end of
the text.  Each capture below implements one concrete pattern of the source
faithfully, including the backtracking order between a greedy leading
whitespace run and the captured group. -/

def evidenceMark : List Char := "evidence:".toList
def sourcesMark : List Char := "sources:".toList

/-- Completion of a `EVIDENCE:\s*(.+?)SOURCES:` match when no SOURCES marker
follows the whitespace run inside a newline-free window: the engine
backtracks the greedy whitespace run by one character, so a SOURCES marker
sitting directly after the whitespace still matches (with a one-character,
whitespace-only capture that trims to the empty string). -/
def evidenceWsBoundary (rest : List Char) (w : Nat) (afterWs : List Char) :
    Option (List Char) :=
  if startsWithCI sourcesMark afterWs ∧ 1 ≤ w ∧ rest.get? (w - 1) ≠ some '\n' then
    some []
  else none

/-- A tentative match of `(?i)EVIDENCE:\s*(.+?)SOURCES:` at the head of `s`.
The engine takes the maximal whitespace run, then grows the lazy dot-group —
which cannot cross a newline — up to the first SOURCES marker; if the first
SOURCES marker after the whitespace lies beyond a newline no choice of the
whitespace boundary can reach it, and only the boundary case above remains. -/
def evidenceStepAt (s : List Char) : Option (List Char) :=
  if startsWithCI evidenceMark s then
    let rest := s.drop evidenceMark.length
    let w := (rest.takeWhile reSpace).length
    let afterWs := rest.drop w
    let segLen := (afterWs.takeWhile (fun c => c ≠ '\n')).length
    match firstIdxCI sourcesMark (afterWs.drop 1) with
    | some m =>
      if m + 1 ≤ segLen then some (trimSpace (rest.take (w + m + 1)))
      else evidenceWsBoundary rest w afterWs
    | none => evidenceWsBoundary rest w afterWs
  else none

/-- Applying `(?i)EVIDENCE:\s*(.+?)SOURCES:` and trimming the capture. -/
def evidencePairCapture (text : List Char) : Option (List Char) :=
  findAtSuffixes evidenceStepAt text

/-- A tentative match of `(?i)MARKER:\s*(.+?)$` (or the greedy `(.+)$` — the
anchors force the same trimmed capture) at the head of `s`: the capture runs
to the end of the text, so a match exists only when no newline stands between
the marker and the end of the text (the whitespace run directly after the
marker excepted). -/
def tailStepAt (marker : List Char) (s : List Char) : Option (List Char) :=
  if startsWithCI marker s then
    let rest := s.drop marker.length
    let w := (rest.takeWhile reSpace).length
    let afterWs := rest.drop w
    if w < rest.length then
      if afterWs.all (fun c => c ≠ '\n') then some (trimSpace afterWs) else none
    else if 1 ≤ rest.length ∧ rest.getLast? ≠ some '\n' then some []
    else none
  else none

/-- Applying `(?i)MARKER:\s*(.+?)$` and trimming the capture. -/
def tailCapture (marker : List Char) (text : List Char) : Option (List Char) :=
  findAtSuffixes (tailStepAt marker) text

/-- `FactCheckerAgent.extractEvidence`: text between the EVIDENCE and SOURCES
markers, else from EVIDENCE to the end of the text, else the default. -/
def extractEvidence (response : List Char) : List Char :=
  match evidencePairCapture response with
  | some evidence => evidence
  | none =>
    match tailCapture evidenceMark response with
    | some evidence => evidence
    | none => "No evidence provided".toList

/-- A character allowed inside a URL by the class complement of whitespace,
right bracket and comma. -/
def urlAllowedChar (c : Char) : Bool := ¬ (reSpace c ∨ c = ']' ∨ c = ',')

/-- Length of a match of `https?://X+` (X the class above) at the head of the
string, preferring the `https` alternative as the optional `s?` is greedy. -/
def urlMatchLen (s : List Char) : Option Nat :=
  let proto : Option Nat :=
    if goStartsWith "https://".toList s then some 8
    else if goStartsWith "http://".toList s then some 7
    else none
  match proto with
  | some n =>
    let body := (s.drop n).takeWhile urlAllowedChar
    if body.isEmpty then none else some (n + body.length)
  | none => none

/-- `FindAllString` scan: leftmost matches, continuing after each match.  The
fuel equals the text length; every step consumes at least one character. -/
def findAllUrlsFuel : Nat → List Char → List (List Char)
  | 0, _ => []
  | _ + 1, [] => []
  | fuel + 1, c :: cs =>
    match urlMatchLen (c :: cs) with
    | some len => (c :: cs).take len :: findAllUrlsFuel fuel ((c :: cs).drop len)
    | none => findAllUrlsFuel fuel cs

def findAllUrls (s : List Char) : List (List Char) := findAllUrlsFuel s.length s

/-- The URL-shaped substrings of the SOURCES section of the reply (empty when
the SOURCES capture is missing, empty or the literal empty list). -/
def foundReplyUrls (response : List Char) : List (List Char) :=
  match tailCapture sourcesMark response with
  | some sourcesText =>
    if sourcesText ≠ [] ∧ sourcesText ≠ "[]".toList then findAllUrls sourcesText
    else []
  | none => []

/-- `FactCheckerAgent.extractSources`: keep only reply URLs exactly equal to
an available source; fall back to the first two available sources when
nothing was kept. -/
def extractSources (response : List Char) (availableSources : List (List Char)) :
    List (List Char) :=
  let sources := (foundReplyUrls response).filter (fun url => availableSources.contains url)
  if sources.isEmpty ∧ ¬ availableSources.isEmpty then availableSources.take 2
  else sources

/-- Go regex word character `\w` (ASCII). -/
def wordChar (c : Char) : Bool := c.isAlphanum ∨ c = '_'

/-- The character class of the CONFIDENCE capture, digits and dots. -/
def confChar (c : Char) : Bool := c.isDigit ∨ c = '.'

/-- Applying `(?i)MARKER:\s*(X+)` for a character class X disjoint from
whitespace: the capture is the maximal X-run directly after the maximal
whitespace run, and the marker occurrence matches only when that run is
nonempty. -/
def fieldCapture (marker : List Char) (good : Char → Bool) (text : List Char) :
    Option (List Char) :=
  findAtSuffixes (fun s =>
    if startsWithCI marker s then
      let afterWs := (s.drop marker.length).dropWhile reSpace
      let cap := afterWs.takeWhile good
      if cap.isEmpty then none else some cap
    else none) text

def validVerdicts : List (List Char) :=
  ["true".toList, "false".toList, "partially_true".toList, "unverifiable".toList]

/-- `FactCheckerAgent.extractVerdict`: `(?i)VERDICT:\s*(\w+)`, lower-cased and
validated against the four verdicts, defaulting to unverifiable. -/
def extractVerdict (response : List Char) : List Char :=
  match fieldCapture "verdict:".toList wordChar response with
  | some cap =>
    let verdict := cap.map Char.toLower
    if validVerdicts.contains verdict then verdict else "unverifiable".toList
  | none => "unverifiable".toList

def natOfDigits (ds : List Char) : Nat := ds.foldl (fun a c => a * 10 + (c.toNat - 48)) 0

/-- `strconv.ParseFloat` restricted to tokens of digits and dots (the only
shape the CONFIDENCE capture can produce). -/
def parseFloatSimple (s : List Char) : Option Rat :=
  match splitOnChar '.' s with
  | [ip] => if ¬ ip.isEmpty ∧ ip.all Char.isDigit then some (natOfDigits ip) else none
  | [ip, fp] =>
    if (¬ ip.isEmpty ∨ ¬ fp.isEmpty) ∧ ip.all Char.isDigit ∧ fp.all Char.isDigit then
      some ((natOfDigits ip : Rat) + (natOfDigits fp : Rat) / ((10 : Rat) ^ fp.length))
    else none
  | _ => none

/-- Clamp to the unit interval. -/
def clampConfidence (x : Rat) : Rat := if x < 0 then 0 else if 1 < x then 1 else x

/-- `FactCheckerAgent.extractConfidence`: `(?i)CONFIDENCE:\s*([\d.]+)`,
parsed and clamped, defaulting to 0.5 when missing or unparsable. -/
def extractConfidence (response : List Char) : Rat :=
  match fieldCapture "confidence:".toList confChar response with
  | some cap =>
    match parseFloatSimple cap with
    | some parsed => clampConfidence parsed
    | none => 1 / 2
  | none => 1 / 2

/-- `agents.FactCheck`, raw-string fields as character lists. -/
structure FactCheckOut where
  claim : List Char
  verdict : List Char
  confidence : Rat
  evidence : List Char
  sources : List (List Char)
deriving DecidableEq

/-- `FactCheckerAgent.parseVerificationResult`. -/
def parseVerificationResult (claim response : List Char)
    (availableSources : List (List Char)) : FactCheckOut :=
  { claim := claim
    verdict := extractVerdict response
    confidence := extractConfidence response
    evidence := extractEvidence response
    sources := extractSources response availableSources }

/-- `FactCheckerAgent.verifyClaim`, parameterised by the outcome of the
search call and of the (potential) LLM analysis call; the Bool records
whether the LLM analysis call was made. -/
def verifyClaim (claim : List Char) (searchOutcome : Except String SearchContext)
    (llmOutcome : Except String (List Char)) : Except String FactCheckOut × Bool :=
  match searchOutcome with
  | .error _ => (.error "web search failed", false)
  | .ok searchContext =>
    if searchContext.snippets.isEmpty then
      (.ok { claim := claim, verdict := "unverifiable".toList, confidence := 0
             evidence := "No search results found".toList, sources := [] }, false)
    else
      match llmOutcome with
      | .error _ => (.error "analysis failed", true)
      | .ok response =>
        (.ok (parseVerificationResult claim response searchContext.sources), true)

/-! ## Agent input validation and the summarizer (BaseAgent, SummarizerAgent) -/

/-- `BaseAgent.ValidateContent`. -/
def validateContent (content : List Char) : Except String Unit :=
  let content := trimSpace content
  if content.isEmpty then .error "cannot process empty content"
  else if content.length < 50 then .error "content too short for meaningful analysis"
  else if 1000000 < content.length then .error "content too long for processing"
  else .ok ()

/-- `BaseAgent.IsUpperCase` (byte test). -/
def isUpperCaseByte (c : Char) : Bool := 'A' ≤ c ∧ c ≤ 'Z'

def summaryMarkers : List (List Char) :=
  ["Summary:".toList, "SUMMARY:".toList, "Podcast Summary:".toList,
   "This podcast discusses".toList, "In this podcast".toList,
   "The podcast covers".toList]

/-- The prefix-stripping loop of `cleanSummary`: strip the first matching
boilerplate marker and stop. -/
def stripSummaryMarker : List (List Char) → List Char → List Char
  | [], s => s
  | p :: ps, s =>
    if goStartsWith p s then trimSpace (s.drop p.length) else stripSummaryMarker ps s

/-- Upper-case the first character unless it already is an upper-case byte. -/
def capitalizeFirst (s : List Char) : List Char :=
  match s with
  | [] => []
  | c :: cs => if isUpperCaseByte c then c :: cs else c.toUpper :: cs

/-- Append a period unless the text already ends with period, bang or
question mark. -/
def ensureTerminalPunct (s : List Char) : List Char :=
  if ¬ s.isEmpty ∧ ¬ goEndsWith ".".toList s ∧ ¬ goEndsWith "!".toList s ∧
      ¬ goEndsWith "?".toList s then
    s ++ ['.']
  else s

/-- `SummarizerAgent.cleanSummary`: trim, strip one boilerplate marker,
capitalize, collapse whitespace runs, ensure terminal punctuation. -/
def cleanSummary (rawSummary : List Char) : List Char :=
  let summary := trimSpace rawSummary
  let summary := stripSummaryMarker summaryMarkers summary
  let summary := capitalizeFirst summary
  let summary := collapseWs summary
  ensureTerminalPunct summary

/-- `SummarizerAgent.validateSummary`.  Go passes the summary by value: the
truncation below rebinds only the local variable, so it never reaches the
caller — the function only decides between an error and success.  (When
`maxChars < 19` and the truncated text has no space the Go code would slice
with index -1 and panic; the model is used with the configured budgets of
150 and 300 only.) -/
def validateSummary (maxChars : Nat) (summary0 : List Char) : Except String Unit :=
  if summary0.isEmpty then .error "generated summary is empty"
  else
    let summary :=
      if maxChars < summary0.length then
        let truncated := summary0.take maxChars
        let lastSpace : Int :=
          match lastIdxOf ' ' truncated with
          | some i => (i : Int)
          | none => -1
        let truncated :=
          if (maxChars : Int) - 20 < lastSpace then truncated.take lastSpace.toNat
          else truncated
        truncated ++ "...".toList
      else summary0
    if summary.length < 20 then .error "summary too short to be meaningful"
    else .ok ()

/-- `SummarizerAgent.Process`: validate the content, call the LLM, clean the
raw reply, validate it — and return the cleaned (never the locally truncated)
summary. -/
def summarizerProcess (maxChars : Nat) (content : List Char)
    (llmOutcome : Except String (List Char)) : Except String (List Char) :=
  match validateContent content with
  | .error e => .error e
  | .ok _ =>
    match llmOutcome with
    | .error e => .error e
    | .ok rawSummary =>
      let summary := cleanSummary rawSummary
      match validateSummary maxChars summary with
      | .error e => .error e
      | .ok _ => .ok summary

/-! ## Takeaway extraction and claim extraction (TakeawayExtractorAgent,
FactCheckerAgent.parseClaims) -/

/-- Strip `^DIGITS<delim>\s*` (the `1.` and `1)` list markers). -/
def stripNumMarker (delim : Char) (l : List Char) : List Char :=
  let ds := l.takeWhile Char.isDigit
  if ds.isEmpty then l
  else
    match l.drop ds.length with
    | c :: rest => if c = delim then rest.dropWhile reSpace else l
    | [] => l

/-- Strip `^<m>\s*` (the dash, bullet and star list markers). -/
def stripCharMarker (m : Char) (l : List Char) : List Char :=
  match l with
  | c :: rest => if c = m then rest.dropWhile reSpace else l
  | [] => l

/-- `removeListMarkers` (identical in the takeaway extractor and in
`parseClaims`): the five anchored patterns applied in order. -/
def removeListMarkers (line : List Char) : List Char :=
  let l := stripNumMarker '.' line
  let l := stripNumMarker ')' l
  let l := stripCharMarker '-' l
  let l := stripCharMarker '•' l
  stripCharMarker '*' l

def skipPhrases : List (List Char) :=
  ["key takeaways".toList, "takeaways:".toList, "summary:".toList,
   "in conclusion".toList, "to summarize".toList]

/-- `TakeawayExtractorAgent.shouldSkipLine`: fewer than 3 fields, or a known
non-takeaway phrase inside the lower-cased line. -/
def shouldSkipLine (line : List Char) : Bool :=
  (goFields line).length < 3 ∨
    skipPhrases.any (fun phrase => containsStr phrase (line.map Char.toLower))

/-- `TakeawayExtractorAgent.cleanTakeaway`: trim, ensure terminal
punctuation, then capitalize. -/
def cleanTakeaway (takeaway : List Char) : List Char :=
  capitalizeFirst (ensureTerminalPunct (trimSpace takeaway))

/-- `TakeawayExtractorAgent.processTakeawayLine`. -/
def processTakeawayLine (line : List Char) : List Char :=
  let line := trimSpace line
  if line.isEmpty then []
  else
    let cleanedLine := removeListMarkers line
    if shouldSkipLine cleanedLine then [] else cleanTakeaway cleanedLine

/-- `TakeawayExtractorAgent.parseTakeaways`: process each line of the trimmed
reply, keep the nonempty results, cap at 10. -/
def parseTakeaways (rawResponse : List Char) : List (List Char) :=
  let lines := splitOnChar '\n' (trimSpace rawResponse)
  let takeaways := (lines.map processTakeawayLine).filter (fun l => ¬ l.isEmpty)
  if 10 < takeaways.length then takeaways.take 10 else takeaways

/-- `FactCheckerAgent.parseClaims`: strip markers, drop lines of fewer than 4
fields, cap at 3.  (No skip-phrase filter and no cleanup, unlike takeaways.) -/
def parseClaims (rawResponse : List Char) : List (List Char) :=
  let lines := splitOnChar '\n' (trimSpace rawResponse)
  let claims := lines.filterMap (fun line =>
    let line := trimSpace line
    if line.isEmpty then none
    else
      let cleanedLine := removeListMarkers line
      if (goFields cleanedLine).length < 4 then none else some cleanedLine)
  if 3 < claims.length then claims.take 3 else claims

/-- `TakeawayExtractorAgent.ProcessWithOptions`: zero parsed takeaways is an
error, unlike claim extraction. -/
def takeawayProcessWithOptions (content : List Char)
    (llmOutcome : Except String (List Char)) : Except String (List (List Char)) :=
  match validateContent content with
  | .error e => .error e
  | .ok _ =>
    match llmOutcome with
    | .error e => .error e
    | .ok rawResponse =>
      let takeaways := parseTakeaways rawResponse
      if takeaways.isEmpty then .error "no takeaways extracted from transcript"
      else .ok takeaways

/-- `FactCheckerAgent.Process`: extract claims (zero claims is a successful
empty result), then verify each claim, degrading a failed verification to an
unverifiable fact check. -/
def factCheckerProcess (content : List Char) (extractLlm : Except String (List Char))
    (searchFor : List Char → Except String SearchContext)
    (verifyLlm : List Char → Except String (List Char)) :
    Except String (List FactCheckOut) :=
  match validateContent content with
  | .error e => .error e
  | .ok _ =>
    match extractLlm with
    | .error _ => .error "failed to extract claims"
    | .ok response =>
      let claims := parseClaims response
      if claims.isEmpty then .ok []
      else
        .ok (claims.map (fun claim =>
          match verifyClaim claim (searchFor claim) (verifyLlm claim) with
          | (.ok factCheck, _) => factCheck
          | (.error _, _) =>
            { claim := claim, verdict := "unverifiable".toList, confidence := 0
              evidence := "Verification failed".toList, sources := [] }))

end PodcastAnalyzer

namespace PodcastAnalyzer

theorem retryAux_requests_le (p : Nat → ProviderResp) (m : Nat) :
    ∀ remaining attempt lastErr,
      (retryAux p m remaining attempt lastErr).requests ≤ remaining := by
  intro remaining
  induction remaining with
  | zero => intro attempt lastErr; simp [retryAux]
  | succ n ih =>
    intro attempt lastErr
    unfold retryAux
    cases p attempt with
    | transportError =>
      by_cases h : attempt < m
      · simpa [h] using Nat.succ_le_succ (ih (attempt + 1) "HTTP request failed")
      · simpa [h] using Nat.succ_le_succ (ih (attempt + 1) "HTTP request failed")
    | resp status retryAfterHeader =>
      by_cases hs : 500 ≤ status ∨ status = 429
      · by_cases h : attempt < m
        · simpa [hs, h] using Nat.succ_le_succ (ih (attempt + 1) lastErr)
        · simpa [hs, h] using Nat.succ_le_succ (ih (attempt + 1) "server error after retries")
      · simp [hs]

/-- C5: given a provider that answers 500, 500, 200, `makeRequestWithRetry`
with the `CallClaude` bound of 3 retries issues exactly 3 requests (waiting
1s then 2s) and returns the third response, the 200; a first response that is
neither a transport failure, a 5xx nor a 429 (in particular any other 4xx or
a 2xx) is returned immediately after exactly one request; and no run ever
issues more than 4 requests (1 first attempt + at most 3 retries). -/
theorem makeRequestWithRetry_spec :
    makeRequestWithRetry provider500x2then200 callClaudeMaxRetries =
      ⟨3, [1, 2], .ok (2, 200)⟩ ∧
    (∀ (p : Nat → ProviderResp) (status : Nat) (h : Option Nat),
      p 0 = .resp status h → status < 500 → status ≠ 429 →
      makeRequestWithRetry p callClaudeMaxRetries = ⟨1, [], .ok (0, status)⟩) ∧
    (∀ p : Nat → ProviderResp,
      (makeRequestWithRetry p callClaudeMaxRetries).requests ≤ 4) := by
  refine ⟨by decide, ?_, ?_⟩
  · intro p status h hp hlt hne
    have hcond : ¬ (500 ≤ status ∨ status = 429) := by
      intro hc; rcases hc with hc | hc
      · omega
      · exact hne hc
    unfold makeRequestWithRetry callClaudeMaxRetries retryAux
    rw [hp]
    simp [hcond]
  · intro p
    exact retryAux_requests_le p callClaudeMaxRetries (callClaudeMaxRetries + 1) 0 ""

/-- Witness for `makeRequestWithRetry_spec`: a provider answering 404 at once
is returned after a single request. -/
theorem makeRequestWithRetry_spec_witness :
    makeRequestWithRetry (fun _ => ProviderResp.resp 404 none) callClaudeMaxRetries =
      ⟨1, [], .ok (0, 404)⟩ :=
  makeRequestWithRetry_spec.2.1 (fun _ => ProviderResp.resp 404 none) 404 none rfl
    (by decide) (by decide)

theorem processAnalysisJob_writes (env : ProcessEnv) (row : AnalysisRow) :
    (processAnalysisJob env row).writes = [] ∨
    (processAnalysisJob env row).writes = [.processing] ∨
    (processAnalysisJob env row).writes = [.processing, .failed] ∨
    (processAnalysisJob env row).writes = [.processing, .completed] := by
  unfold processAnalysisJob
  repeat' split
  all_goals simp

/-- C1 counterexample: when the Kafka publish fails, `CreateAnalysisJob`
writes failed onto a pending row — the trace pending, failed is not a chain
of the claimed relation pending → processing → (completed or failed). -/
theorem jobStatusTrace_claimedStep_counterexample :
    chainOk specClaimedStep (jobStatusTrace publishFailEnv allOkProcessEnv) = false := by
  decide

/-- C1 amended: every status trace a job row can follow under one
`CreateAnalysisJob` call and (when a message was enqueued) one
`processAnalysisJob` run of the dequeuing worker stays inside
pending → processing → (completed or failed) extended with the direct
pending → failed write of the enqueue-failure path, and once the row reaches
completed or failed no further status is written in that execution.
(`UpdateJobStatus` itself checks no precondition, so this relies on the call
sites, not on a guard in the update.) -/
theorem jobStatusTrace_codeStep_valid (cEnv : CreateJobEnv) (pEnv : ProcessEnv) :
    chainOk codeStep (jobStatusTrace cEnv pEnv) = true ∧
    noWriteAfterTerminal (jobStatusTrace cEnv pEnv) = true := by
  rcases cEnv with ⟨te, io, po⟩
  cases te with
  | false => exact ⟨rfl, rfl⟩
  | true =>
    cases io with
    | false => exact ⟨rfl, rfl⟩
    | true =>
      cases po with
      | false => exact ⟨rfl, rfl⟩
      | true =>
        rcases processAnalysisJob_writes pEnv newAnalysisRow with h | h | h | h <;>
          simp only [jobStatusTrace, createAnalysisJob, h] <;> decide

/-- C2: a panic raised while processing a job is not converted into a failed
status.  In `AnalysisService.processAnalysisJob` the deferred expression
`defer s.setupJobPanicRecovery(jobID, correlationID)` never invokes the
returned recovery closure, so the panic escapes the function and the row is
left in processing; in the worker binary the inline deferred closure does
recover the panic and the consume loop continues with the next message, but
its recovery block only sets `retErr` — the row again stays in processing
instead of being marked failed. -/
theorem panic_handling_divergence :
    (processAnalysisJob panicProcessEnv newAnalysisRow).panicEscaped = true ∧
    (processAnalysisJob panicProcessEnv newAnalysisRow).row.status = .processing ∧
    (processAnalysisJobWorker panicProcessEnv newAnalysisRow).panicEscaped = false ∧
    (processAnalysisJobWorker panicProcessEnv newAnalysisRow).returnedError = true ∧
    (processAnalysisJobWorker panicProcessEnv newAnalysisRow).row.status = .processing ∧
    (workerRun [panicProcessEnv, allOkProcessEnv]).length = 2 ∧
    (workerRun [panicProcessEnv, allOkProcessEnv]).map (fun o => o.row.status) =
      [.processing, .completed] := by
  decide

/-- C3 counterexample: in the enqueue-failure path the row ends with
status = failed but with no error message recorded on it — the update writes
the status column only. -/
theorem createAnalysisJob_no_errorMessage :
    (createAnalysisJob publishFailEnv).1 = some { newAnalysisRow with status := .failed } ∧
    ({ newAnalysisRow with status := JobStatus.failed }).errorMessage = none ∧
    (createAnalysisJob publishFailEnv).2.2 = .error "failed to queue analysis job" := by
  decide

/-- C3 amended: when the job row is created but the queue publish fails, the
row is updated to status = failed (the error is logged but no error message
is recorded on the row, and no completion timestamp is set) and the call
returns an error rather than a job ID. -/
theorem createAnalysisJob_publishFail_spec :
    createAnalysisJob publishFailEnv =
      (some { status := .failed, summary := none, takeaways := none,
              errorMessage := none, completedAtSet := false, factChecks := [] },
        [JobStatus.failed], .error "failed to queue analysis job") := by
  decide

/-- C4: when the summarizer and takeaway stages succeed and the fact checker
stage errors, the orchestrator swallows the error, the job completes, the
summary and takeaways are persisted and the stored fact-check list is empty. -/
theorem factChecker_error_job_completes (summary : String) (takeaways : List String)
    (errMsg : String) :
    processAnalysisJob
      { allOkProcessEnv with
          summarizer := .ok summary
          takeawayExtractor := .ok takeaways
          factChecker := .error errMsg } newAnalysisRow =
      { row := { status := .completed, summary := some summary,
                 takeaways := some ⟨takeaways⟩, errorMessage := none,
                 completedAtSet := true, factChecks := [] }
        writes := [.processing, .completed], panicEscaped := false
        returnedError := false } := by
  rfl

/-- C6: a claim whose search yields zero snippets short-circuits to the
unverifiable fact check with confidence 0, the fixed evidence text and no
sources, and the LLM analysis call is never made — whatever its outcome
would have been. -/
theorem verifyClaim_no_snippets (claim originalClaim searchQuery : List Char)
    (sources : List (List Char)) (totalResults : Nat)
    (llmOutcome : Except String (List Char)) :
    verifyClaim claim
      (.ok { originalClaim := originalClaim, searchQuery := searchQuery,
             snippets := [], sources := sources, totalResults := totalResults })
      llmOutcome =
      (.ok { claim := claim, verdict := "unverifiable".toList, confidence := 0
             evidence := "No search results found".toList, sources := [] }, false) := by
  rfl

theorem organicSources_sub_links (rs : List SerperResult) (url : List Char)
    (h : url ∈ organicSources rs) : url ∈ rs.map SerperResult.link := by
  induction rs with
  | nil => simpa [organicSources] using h
  | cons r rs ih =>
    simp only [organicSources] at h
    rcases List.mem_append.mp h with h1 | h2
    · by_cases hl : r.link.isEmpty
      · simp [hl] at h1
      · simp [hl] at h1
        simp [h1]
    · simp [ih h2]

theorem answerBoxSources_sub (ab : Option SerperAnswerBox) (url : List Char)
    (h : url ∈ answerBoxSources ab) :
    url ∈ (match ab with | some ab => [ab.link] | none => []) := by
  cases ab with
  | none => simp [answerBoxSources] at h
  | some ab =>
    suffices hs : url = ab.link by simp [hs]
    simp only [answerBoxSources] at h
    split at h <;> simp at h <;> tauto

theorem knowledgeGraphSources_sub (kg : Option SerperKnowledgeGraph) (url : List Char)
    (h : url ∈ knowledgeGraphSources kg) :
    url ∈ (match kg with | some kg => [kg.website] | none => []) := by
  cases kg with
  | none => simp [knowledgeGraphSources] at h
  | some kg =>
    suffices hs : url = kg.website by simp [hs]
    simp only [knowledgeGraphSources] at h
    split at h <;> simp at h <;> tauto

/-- C7: (1) every URL returned by `extractSources` is one of the available
sources gathered by the search step for that claim; (2) when no URL of the
reply matches an available source — in particular when the reply offers none —
the result is exactly the first two available sources (all of them when fewer
than two exist); (3) every source recorded by `extractSearchContext` is a URL
field of the Serper response it was built from. -/
theorem extractSources_spec :
    (∀ (response : List Char) (availableSources : List (List Char)) (url : List Char),
      url ∈ extractSources response availableSources → url ∈ availableSources) ∧
    (∀ (response : List Char) (availableSources : List (List Char)),
      (∀ url ∈ foundReplyUrls response, url ∉ availableSources) →
      extractSources response availableSources = availableSources.take 2) ∧
    (∀ (results : SerperResponse) (url : List Char),
      url ∈ (extractSearchContext results).sources → url ∈ responseUrls results) := by
  refine ⟨?_, ?_, ?_⟩
  · intro response availableSources url hu
    simp only [extractSources] at hu
    split at hu
    · exact List.take_subset 2 availableSources hu
    · have := List.mem_filter.mp hu
      exact List.elem_iff.mp this.2
  · intro response availableSources h
    have hfilter :
        (foundReplyUrls response).filter (fun url => decide (url ∈ availableSources)) = [] := by
      refine List.filter_eq_nil_iff.mpr ?_
      intro u hu
      simpa using h u hu
    by_cases ha : availableSources.isEmpty
    · have hnil := List.isEmpty_iff.mp ha
      subst hnil
      simp [extractSources, hfilter]
    · simp [extractSources, hfilter, ha]
  · intro results url hu
    unfold extractSearchContext at hu
    simp only at hu
    unfold responseUrls
    rcases List.mem_append.mp hu with h1 | h2
    · rcases List.mem_append.mp h1 with h11 | h12
      · exact List.mem_append.mpr (Or.inl (List.mem_append.mpr
          (Or.inl (answerBoxSources_sub _ _ h11))))
      · exact List.mem_append.mpr (Or.inl (List.mem_append.mpr
          (Or.inr (knowledgeGraphSources_sub _ _ h12))))
    · exact List.mem_append.mpr (Or.inr (organicSources_sub_links _ _ h2))

/-- Witness for `extractSources_spec`: a matching reply URL is kept and is
indeed one of the available sources. -/
theorem extractSources_spec_witness :
    "https://a.com".toList ∈
      ["https://a.com".toList, "https://b.com".toList] ∧
    extractSources "VERDICT: true SOURCES: none given".toList
      ["https://a.com".toList, "https://b.com".toList] =
      ["https://a.com".toList, "https://b.com".toList].take 2 :=
  ⟨extractSources_spec.1 "SOURCES: https://a.com".toList
      ["https://a.com".toList, "https://b.com".toList] "https://a.com".toList
      (by decide),
   extractSources_spec.2.1 "VERDICT: true SOURCES: none given".toList
      ["https://a.com".toList, "https://b.com".toList]
      (by decide)⟩

/-- C8: the summary returned by the summarizer is not held to the configured
maximum-character budget.  On a 200-character raw reply with budget 150 the
cleaned summary — 201 characters — passes validation and is returned as-is:
`validateSummary` computes its truncation on a by-value local that never
reaches the caller. -/
theorem summarizer_exceeds_budget :
    summarizerProcess 150 (List.replicate 60 'a') (.ok (List.replicate 200 'a')) =
      .ok (cleanSummary (List.replicate 200 'a')) ∧
    150 < (cleanSummary (List.replicate 200 'a')).length := by
  constructor
  · rfl
  · decide

/-- C10: (1) a reply from which the takeaway parser extracts zero lines makes
`ProcessWithOptions` return an error rather than an empty list; (2) a reply
from which the claim parser extracts zero claims makes the fact checker
`Process` succeed with an empty fact-check list; (3) the orchestrator
swallows the takeaway-stage error into an empty takeaway list, the only way a
completed job shows zero takeaways. -/
theorem takeaway_zero_is_error :
    (∀ (content rawResponse : List Char),
      validateContent content = .ok () → parseTakeaways rawResponse = [] →
      takeawayProcessWithOptions content (.ok rawResponse) =
        .error "no takeaways extracted from transcript") ∧
    (∀ (content rawResponse : List Char)
      (searchFor : List Char → Except String SearchContext)
      (verifyLlm : List Char → Except String (List Char)),
      validateContent content = .ok () → parseClaims rawResponse = [] →
      factCheckerProcess content (.ok rawResponse) searchFor verifyLlm = .ok []) ∧
    (∀ errMsg : String, runTakeawayExtractorAgent (.error errMsg) = .ok []) := by
  refine ⟨?_, ?_, fun _ => rfl⟩
  · intro content rawResponse hv hp
    simp [takeawayProcessWithOptions, hv, hp]
  · intro content rawResponse searchFor verifyLlm hv hp
    simp [factCheckerProcess, hv, hp]

/-- Witness for `takeaway_zero_is_error` at a concrete transcript and a reply
whose only line is too short to be kept. -/
theorem takeaway_zero_is_error_witness :
    takeawayProcessWithOptions (List.replicate 60 'a') (.ok "hi".toList) =
      .error "no takeaways extracted from transcript" ∧
    factCheckerProcess (List.replicate 60 'a') (.ok "hi".toList)
      (fun _ => .error "") (fun _ => .error "") = .ok [] :=
  ⟨takeaway_zero_is_error.1 (List.replicate 60 'a') "hi".toList (by decide) (by decide),
   takeaway_zero_is_error.2.1 (List.replicate 60 'a') "hi".toList
     (fun _ => .error "") (fun _ => .error "") (by decide) (by decide)⟩

theorem reSpace_goSpace {c : Char} (h : reSpace c = true) : goSpace c = true := by
  simp only [reSpace, decide_eq_true_eq] at h
  simp only [goSpace, decide_eq_true_eq]
  tauto

theorem dropWhile_reSpace_goSpace (l : List Char) :
    (l.dropWhile reSpace).dropWhile goSpace = l.dropWhile goSpace := by
  induction l with
  | nil => rfl
  | cons c cs ih =>
    by_cases h : reSpace c = true
    · simp [List.dropWhile_cons, h, reSpace_goSpace h, ih]
    · simp only [Bool.not_eq_true] at h
      simp [List.dropWhile_cons, h]

theorem trimSpace_dropWhile_reSpace (l : List Char) :
    trimSpace (l.dropWhile reSpace) = trimSpace l := by
  unfold trimSpace
  rw [dropWhile_reSpace_goSpace]

theorem drop_length_takeWhile (p : Char → Bool) (l : List Char) :
    l.drop (l.takeWhile p).length = l.dropWhile p := by
  induction l with
  | nil => rfl
  | cons c cs ih =>
    by_cases h : p c = true
    · simp [List.takeWhile_cons, List.dropWhile_cons, h, ih]
    · simp only [Bool.not_eq_true] at h
      simp [List.takeWhile_cons, List.dropWhile_cons, h]

theorem exists_not_of_any_not {l : List Char} {p : Char → Bool}
    (h : l.any (fun c => ¬ p c) = true) : ∃ c ∈ l, p c = false := by
  rcases List.any_eq_true.mp h with ⟨c, hc, hpc⟩
  exact ⟨c, hc, by simpa using hpc⟩

theorem takeWhile_append_left (p : Char → Bool) (l r : List Char)
    (h : ∃ c ∈ l, p c = false) :
    (l ++ r).takeWhile p = l.takeWhile p := by
  induction l with
  | nil => simp at h
  | cons c cs ih =>
    by_cases hc : p c = true
    · have h' : ∃ x ∈ cs, p x = false := by
        rcases h with ⟨x, hx, hpx⟩
        rcases List.mem_cons.mp hx with rfl | hxs
        · rw [hc] at hpx; cases hpx
        · exact ⟨x, hxs, hpx⟩
      simp [List.cons_append, List.takeWhile_cons, hc, ih h']
    · simp only [Bool.not_eq_true] at hc
      simp [List.cons_append, List.takeWhile_cons, hc]

theorem takeWhile_length_lt (p : Char → Bool) (l : List Char)
    (h : ∃ c ∈ l, p c = false) :
    (l.takeWhile p).length < l.length := by
  induction l with
  | nil => simp at h
  | cons c cs ih =>
    by_cases hc : p c = true
    · have h' : ∃ x ∈ cs, p x = false := by
        rcases h with ⟨x, hx, hpx⟩
        rcases List.mem_cons.mp hx with rfl | hxs
        · rw [hc] at hpx; cases hpx
        · exact ⟨x, hxs, hpx⟩
      simpa [List.takeWhile_cons, hc] using ih h'
    · simp only [Bool.not_eq_true] at hc
      simp [List.takeWhile_cons, hc]

theorem le_length_takeWhile (p : Char → Bool) (l : List Char) (n : Nat)
    (hn : n ≤ l.length) (h : ∀ c ∈ l.take n, p c = true) :
    n ≤ (l.takeWhile p).length := by
  induction l generalizing n with
  | nil => simpa using hn
  | cons c cs ih =>
    cases n with
    | zero => exact Nat.zero_le _
    | succ m =>
      have hc : p c = true := h c (by simp [List.take_succ_cons])
      have hm := ih m (by simpa using hn)
        (fun x hx => h x (by simp [List.take_succ_cons]; exact Or.inr hx))
      simp only [List.takeWhile_cons, hc, if_true, List.length_cons]
      omega

theorem findAtSuffixes_head {α : Type} (f : List Char → Option α) (l : List Char)
    {a : α} (h : f l = some a) : findAtSuffixes f l = some a := by
  cases l <;> simp [findAtSuffixes, h]

theorem startsWithCI_append {needle lit : List Char} (rest : List Char)
    (hlen : lit.length = needle.length) (hmap : lit.map Char.toLower = needle) :
    startsWithCI needle (lit ++ rest) = true := by
  unfold startsWithCI
  apply decide_eq_true
  rw [← hlen, List.take_left, hmap]

theorem containsCI_cons_false {needle : List Char} {c : Char} {cs : List Char}
    (h : containsCI needle (c :: cs) = false) : containsCI needle cs = false := by
  simp only [containsCI, Bool.or_eq_false_iff] at h
  exact h.2

theorem not_startsWithCI_of_not_containsCI {needle l : List Char}
    (h : containsCI needle l = false) : startsWithCI needle l = false := by
  cases l with
  | nil => simpa [containsCI] using h
  | cons c cs =>
    simp only [containsCI, Bool.or_eq_false_iff] at h
    exact h.1

theorem containsCI_drop {needle : List Char} (l : List Char) (n : Nat)
    (h : containsCI needle l = false) : containsCI needle (l.drop n) = false := by
  induction l generalizing n with
  | nil => simpa using h
  | cons c cs ih =>
    cases n with
    | zero => simpa using h
    | succ m => exact ih m (containsCI_cons_false h)

theorem firstIdxCI_none {needle : List Char} (l : List Char)
    (h : containsCI needle l = false) : firstIdxCI needle l = none := by
  induction l with
  | nil => simp [firstIdxCI, not_startsWithCI_of_not_containsCI h]
  | cons c cs ih =>
    simp [firstIdxCI, not_startsWithCI_of_not_containsCI h,
      ih (containsCI_cons_false h)]

theorem firstIdxCI_eq {needle : List Char} (l : List Char) (n : Nat)
    (hbefore : ∀ i < n, startsWithCI needle (l.drop i) = false)
    (hat : startsWithCI needle (l.drop n) = true) :
    firstIdxCI needle l = some n := by
  induction n generalizing l with
  | zero =>
    cases l with
    | nil => simp [firstIdxCI, show startsWithCI needle [] = true from by simpa using hat]
    | cons c cs =>
      simp [firstIdxCI, show startsWithCI needle (c :: cs) = true from by simpa using hat]
  | succ m ih =>
    cases l with
    | nil =>
      have h0 := hbefore 0 (Nat.succ_pos m)
      simp only [List.drop_nil] at h0 hat
      rw [h0] at hat
      cases hat
    | cons c cs =>
      have h0 : startsWithCI needle (c :: cs) = false := by
        simpa using hbefore 0 (Nat.succ_pos m)
      have ih' := ih cs
        (fun i hi => by simpa using hbefore (i + 1) (Nat.succ_lt_succ hi))
        (by simpa using hat)
      simp [firstIdxCI, h0, ih']

theorem findAtSuffixes_none {α : Type} (f : List Char → Option α)
    (needle : List Char) (hf : ∀ s, startsWithCI needle s = false → f s = none)
    (l : List Char) (h : containsCI needle l = false) :
    findAtSuffixes f l = none := by
  induction l with
  | nil => simp [findAtSuffixes, hf [] (not_startsWithCI_of_not_containsCI h)]
  | cons c cs ih =>
    simp [findAtSuffixes, hf _ (not_startsWithCI_of_not_containsCI h),
      ih (containsCI_cons_false h)]

theorem evidenceStepAt_none_of_no_sources {s : List Char}
    (h : containsCI sourcesMark s = false) : evidenceStepAt s = none := by
  by_cases he : startsWithCI evidenceMark s = true
  · have hfirst : firstIdxCI sourcesMark
        (s.drop (evidenceMark.length +
          ((s.drop evidenceMark.length).takeWhile reSpace).length + 1)) = none :=
      firstIdxCI_none _ (containsCI_drop s _ h)
    have hsw : startsWithCI sourcesMark
        (s.drop (evidenceMark.length +
          ((s.drop evidenceMark.length).takeWhile reSpace).length)) = false :=
      not_startsWithCI_of_not_containsCI (containsCI_drop s _ h)
    simp [evidenceStepAt, he, hfirst, evidenceWsBoundary, hsw]
  · simp only [Bool.not_eq_true] at he
    simp [evidenceStepAt, he]

theorem evidencePairCapture_none_of_no_sources (text : List Char)
    (h : containsCI sourcesMark text = false) : evidencePairCapture text = none := by
  unfold evidencePairCapture
  induction text with
  | nil => simp [findAtSuffixes, evidenceStepAt_none_of_no_sources h]
  | cons c cs ih =>
    simp [findAtSuffixes, evidenceStepAt_none_of_no_sources h,
      ih (containsCI_cons_false h)]

/-- C9 counterexample: on the reply format the fact-check prompt itself
demands — EVIDENCE and SOURCES on separate lines — the code stores the
default although the EVIDENCE field is present and nonempty: the RE2 dot
cannot cross the newline and `$` only matches at the end of the text. -/
theorem extractEvidence_newline_counterexample :
    extractEvidence "EVIDENCE: abc\nSOURCES: http://x".toList =
      "No evidence provided".toList ∧
    containsCI evidenceMark "EVIDENCE: abc\nSOURCES: http://x".toList = true ∧
    trimSpace " abc\n".toList ≠ "No evidence provided".toList := by
  decide

/-- C9 amended: the stored evidence is the trimmed text between the EVIDENCE
marker and the SOURCES marker when no newline separates the evidence text
from that marker (1), and the trimmed text from the EVIDENCE marker to the
end when no SOURCES marker is present and the evidence text reaches the end
without a newline (2); when the EVIDENCE marker is absent the default is
stored (3) — but, as the counterexample shows, the default is also stored
when the field is present and a newline cuts the evidence off, so the
default does not equal a missing field exactly. -/
theorem extractEvidence_spec :
    (∀ text : List Char, containsCI evidenceMark text = false →
      extractEvidence text = "No evidence provided".toList) ∧
    (∀ e tail : List Char,
      e.any (fun c => ¬ reSpace c) = true →
      e.all (fun c => c ≠ '\n') = true →
      (∀ j < e.length,
        startsWithCI sourcesMark ((e ++ "SOURCES:".toList ++ tail).drop j) = false) →
      extractEvidence ("EVIDENCE:".toList ++ e ++ "SOURCES:".toList ++ tail) =
        trimSpace e) ∧
    (∀ e : List Char,
      e.any (fun c => ¬ reSpace c) = true →
      e.all (fun c => c ≠ '\n') = true →
      containsCI sourcesMark ("EVIDENCE:".toList ++ e) = false →
      extractEvidence ("EVIDENCE:".toList ++ e) = trimSpace e) := by
  refine ⟨?_, ?_, ?_⟩
  · intro text h
    have h1 : evidencePairCapture text = none := by
      unfold evidencePairCapture
      exact findAtSuffixes_none _ evidenceMark
        (fun s hs => by simp [evidenceStepAt, hs]) text h
    have h2 : tailCapture evidenceMark text = none := by
      unfold tailCapture
      exact findAtSuffixes_none _ evidenceMark
        (fun s hs => by simp [tailStepAt, hs]) text h
    unfold extractEvidence
    rw [h1, h2]
  · intro e tail hws hnl hnosrc
    have hex : ∃ c ∈ e, reSpace c = false := exists_not_of_any_not hws
    have hwlt : (e.takeWhile reSpace).length < e.length := takeWhile_length_lt _ _ hex
    set we := (e.takeWhile reSpace).length with hwe
    set rest0 : List Char := e ++ "SOURCES:".toList ++ tail with hrest0
    have htw : (rest0.takeWhile reSpace).length = we := by
      rw [hrest0, List.append_assoc, takeWhile_append_left _ _ _ hex]
    have hdropw : rest0.drop we = e.drop we ++ ("SOURCES:".toList ++ tail) := by
      rw [hrest0, List.append_assoc, List.drop_append_of_le_length (Nat.le_of_lt hwlt)]
    have hstart : startsWithCI evidenceMark ("EVIDENCE:".toList ++ rest0) = true :=
      startsWithCI_append rest0 (by decide) (by decide)
    have hdrop9 : ("EVIDENCE:".toList ++ rest0).drop evidenceMark.length = rest0 := by
      have : evidenceMark.length = ("EVIDENCE:".toList).length := by decide
      rw [this, List.drop_left]
    have hfirst : firstIdxCI sourcesMark ((rest0.drop we).drop 1) =
        some (e.length - we - 1) := by
      apply firstIdxCI_eq
      · intro i hi
        have : ((rest0.drop we).drop 1).drop i = rest0.drop (we + 1 + i) := by
          rw [List.drop_drop, List.drop_drop]
          congr 1
          omega
        rw [this, hrest0]
        exact hnosrc (we + 1 + i) (by omega)
      · have : ((rest0.drop we).drop 1).drop (e.length - we - 1) =
            rest0.drop e.length := by
          rw [List.drop_drop, List.drop_drop]
          congr 1
          omega
        rw [this, hrest0, List.append_assoc, List.drop_left]
        exact startsWithCI_append tail (by decide) (by decide)
    have hseg : e.length - we ≤ ((rest0.drop we).takeWhile (fun c => c ≠ '\n')).length := by
      apply le_length_takeWhile
      · rw [hdropw]
        simp only [List.length_append, List.length_drop]
        omega
      · intro c hc
        rw [hdropw] at hc
        have hlen : e.length - we = (e.drop we).length := (List.length_drop we e).symm
        rw [hlen, List.take_left] at hc
        have : c ∈ e := List.mem_of_mem_drop hc
        simpa using List.all_eq_true.mp hnl c this
    have harith : we + (e.length - we - 1) + 1 = e.length := by omega
    have htake : rest0.take e.length = e := by
      rw [hrest0, List.append_assoc, List.take_append_of_le_length (Nat.le_refl _),
        List.take_length]
    have hstep : evidenceStepAt ("EVIDENCE:".toList ++ rest0) = some (trimSpace e) := by
      unfold evidenceStepAt
      rw [if_pos hstart]
      simp only [hdrop9, htw, hfirst]
      rw [if_pos (by omega : e.length - we - 1 + 1 ≤
        ((rest0.drop we).takeWhile (fun c => c ≠ '\n')).length)]
      rw [harith, htake]
    have htext : "EVIDENCE:".toList ++ e ++ "SOURCES:".toList ++ tail =
        "EVIDENCE:".toList ++ rest0 := by
      rw [hrest0]
      simp [List.append_assoc]
    rw [htext]
    unfold extractEvidence
    rw [show evidencePairCapture ("EVIDENCE:".toList ++ rest0) = some (trimSpace e) from
      findAtSuffixes_head _ _ hstep]
  · intro e hws hnl hnosrc
    have hex : ∃ c ∈ e, reSpace c = false := exists_not_of_any_not hws
    have hwlt : (e.takeWhile reSpace).length < e.length := takeWhile_length_lt _ _ hex
    have hstart : startsWithCI evidenceMark ("EVIDENCE:".toList ++ e) = true :=
      startsWithCI_append e (by decide) (by decide)
    have hdrop9 : ("EVIDENCE:".toList ++ e).drop evidenceMark.length = e := by
      have : evidenceMark.length = ("EVIDENCE:".toList).length := by decide
      rw [this, List.drop_left]
    have hstep : tailStepAt evidenceMark ("EVIDENCE:".toList ++ e) =
        some (trimSpace e) := by
      unfold tailStepAt
      rw [if_pos hstart]
      simp only [hdrop9]
      rw [if_pos hwlt]
      rw [if_pos]
      · rw [drop_length_takeWhile, trimSpace_dropWhile_reSpace]
      · apply List.all_eq_true.mpr
        intro c hc
        exact List.all_eq_true.mp hnl c (List.mem_of_mem_drop hc)
    unfold extractEvidence
    rw [evidencePairCapture_none_of_no_sources _ hnosrc]
    rw [show tailCapture evidenceMark ("EVIDENCE:".toList ++ e) = some (trimSpace e) from
      findAtSuffixes_head _ _ hstep]

/-- Witness for `extractEvidence_spec` on three concrete replies. -/
theorem extractEvidence_spec_witness :
    extractEvidence "VERDICT: true".toList = "No evidence provided".toList ∧
    extractEvidence "EVIDENCE: solid proof SOURCES: https://a.com".toList =
      trimSpace " solid proof ".toList ∧
    extractEvidence "EVIDENCE: trailing proof".toList =
      trimSpace " trailing proof".toList :=
  ⟨extractEvidence_spec.1 "VERDICT: true".toList (by decide),
   extractEvidence_spec.2.1 " solid proof ".toList " https://a.com".toList
     (by decide) (by decide) (by decide),
   extractEvidence_spec.2.2 " trailing proof".toList (by decide) (by decide) (by decide)⟩

end PodcastAnalyzer
